import Mathlib

/-!
Shallow embedding of the page-turn controller in src/script.js (variant A)
and src/unnamed/part_000 (variant B, namespace Variant2).

Modelling conventions:
* Each page DOM element carries its CSS classes ("turning", "turned",
  "hidden") and its inline transform string.  The page stack is an
  association list from the data-page attribute (an integer) to the
  element; a key that is absent models a missing DOM element, and
  querySelector is first-match lookup.
* currentPage is an Int, as in the JavaScript source.
* Each setTimeout call is modelled by a `pending` field recording which
  callback is scheduled, the page element captured by the closure (by its
  data-page key) and the delay in milliseconds; a separate completion
  function runs the body of the callback.  A completion function applied
  to a state whose `pending` does not match is the identity: that timer
  is not scheduled, so it cannot fire.
* updateDisplay writes only the indicator text (and, in variant B, the
  two button-disabled flags); it is modelled as a state update of those
  presentation fields.
-/

namespace Notebook

/-- Presentation state of one page element: the three CSS classes the
controller toggles, plus the inline style transform. -/
structure PageEl where
  turning : Bool
  turned : Bool
  hidden : Bool
  transform : String
  deriving DecidableEq, Repr

/-- A page element with no controller-added classes and no inline
transform: the initial presentation state. -/
def initPage : PageEl :=
  { turning := false, turned := false, hidden := false, transform := "" }

/-- First-match lookup of a page element by its data-page key, as
querySelector does. -/
def findPage : List (Int × PageEl) → Int → Option PageEl
  | [], _ => Option.none
  | (j, p) :: rest, k => if j = k then some p else findPage rest k

/-- Replace the first element whose data-page key matches; the identity
when no key matches.  Mutating the element captured by a closure is
modelled by updating this first match. -/
def setPage : List (Int × PageEl) → Int → PageEl → List (Int × PageEl)
  | [], _, _ => []
  | (j, p) :: rest, k, q =>
      if j = k then (j, q) :: rest else (j, p) :: setPage rest k q

/-- The scheduled setTimeout callback, if any: which callback, the page
key captured by its closure, and the delay in milliseconds. -/
inductive Pending where
  | none : Pending
  | opening : Nat → Pending
  | turnEnd : Int → Nat → Pending
  | returnStart : Int → Nat → Pending
  | returnEnd : Int → Nat → Pending
  deriving DecidableEq, Repr

/-- Controller state for variant A (src/script.js): the four controller
fields, the "opened" class on the notebook element, the page-element
stack, the indicator text, and the scheduled callback. -/
structure NState where
  currentPage : Int
  totalPages : Int
  isOpened : Bool
  isAnimating : Bool
  openedClass : Bool
  pages : List (Int × PageEl)
  indicator : String
  pending : Pending
  deriving DecidableEq, Repr

/-- The indicator text computed by updateDisplay from currentPage. -/
def indicatorText (cp n : Int) : String :=
  if cp = 0 then "Cover"
  else if cp > n then "End"
  else "Page " ++ toString cp

/-- updateDisplay of variant A: writes the page indicator only. -/
def updateDisplay (s : NState) : NState :=
  { s with indicator := indicatorText s.currentPage s.totalPages }

/-- initializePageStates: reset every page element to no transform and
without the "turned" and "hidden" classes (the "turning" class is not
touched). -/
def initializePageStates (s : NState) : NState :=
  { s with pages := s.pages.map fun jp =>
      (jp.1, { jp.2 with transform := "", turned := false, hidden := false }) }

/-- openNotebook of variant A: guarded by the animation lock and the
opened flag; sets the lock, the opened flag, currentPage := 1, the
"opened" class, resets the pages, and schedules the 500 ms completion. -/
def openNotebook (s : NState) : NState :=
  if s.isAnimating = true ∨ s.isOpened = true then s
  else
    let s1 := { s with isAnimating := true, isOpened := true, currentPage := 1,
                       openedClass := true }
    let s2 := initializePageStates s1
    { s2 with pending := Pending.opening 500 }

/-- The body of the setTimeout callback scheduled by openNotebook:
releases the lock and calls updateDisplay. -/
def openComplete (s : NState) : NState :=
  match s.pending with
  | Pending.opening _ =>
      updateDisplay { s with isAnimating := false, pending := Pending.none }
  | _ => s

/-- nextPage of variant A: guarded by the animation lock and
currentPage >= totalPages; takes the lock, looks up the current page
element, and if present adds "turning" and schedules the 600 ms
completion.  When the element is missing nothing further happens (the
lock stays taken). -/
def nextPage (s : NState) : NState :=
  if s.isAnimating = true ∨ s.totalPages ≤ s.currentPage then s
  else
    let s1 := { s with isAnimating := true }
    match findPage s1.pages s1.currentPage with
    | some p =>
        { s1 with pages := setPage s1.pages s1.currentPage { p with turning := true },
                  pending := Pending.turnEnd s1.currentPage 600 }
    | Option.none => s1

/-- The body of the setTimeout callback scheduled by nextPage: on the
captured element swap "turning" for "turned", increment currentPage,
clamp to totalPages + 1 adding "hidden" when the increment passed
totalPages, release the lock, updateDisplay. -/
def turnComplete (s : NState) : NState :=
  match s.pending with
  | Pending.turnEnd k _ =>
      match findPage s.pages k with
      | some p =>
          let p1 := { p with turning := false, turned := true }
          if s.totalPages < s.currentPage + 1 then
            updateDisplay
              { s with pages := setPage s.pages k { p1 with hidden := true },
                       currentPage := s.totalPages + 1,
                       isAnimating := false, pending := Pending.none }
          else
            updateDisplay
              { s with pages := setPage s.pages k p1,
                       currentPage := s.currentPage + 1,
                       isAnimating := false, pending := Pending.none }
      | Option.none => s
  | _ => s

/-- previousPage of variant A: guarded by the animation lock and
currentPage <= 1; takes the lock, decrements currentPage, looks up the
page being returned to; if present removes "hidden", and either starts
the reverse animation (when the element had "turned": set the rotation
transform and schedule the 50 ms step) or releases the lock at once.
When the element is missing nothing further happens. -/
def previousPage (s : NState) : NState :=
  if s.isAnimating = true ∨ s.currentPage ≤ 1 then s
  else
    let s1 := { s with isAnimating := true, currentPage := s.currentPage - 1 }
    match findPage s1.pages s1.currentPage with
    | some p =>
        if p.turned = true then
          { s1 with pages := setPage s1.pages s1.currentPage
                      { p with hidden := false, transform := "rotateY(-180deg)" },
                    pending := Pending.returnStart s1.currentPage 50 }
        else
          updateDisplay
            { s1 with pages := setPage s1.pages s1.currentPage { p with hidden := false },
                      isAnimating := false }
    | Option.none => s1

/-- The body of the outer (50 ms) setTimeout callback scheduled by
previousPage: add "turning", clear the transform, schedule the 600 ms
completion. -/
def returnMid (s : NState) : NState :=
  match s.pending with
  | Pending.returnStart k _ =>
      match findPage s.pages k with
      | some p =>
          { s with pages := setPage s.pages k { p with turning := true, transform := "" },
                   pending := Pending.returnEnd k 600 }
      | Option.none => s
  | _ => s

/-- The body of the inner (600 ms) setTimeout callback scheduled by
returnMid: remove "turning" and "turned", release the lock,
updateDisplay. -/
def returnComplete (s : NState) : NState :=
  match s.pending with
  | Pending.returnEnd k _ =>
      match findPage s.pages k with
      | some p =>
          updateDisplay
            { s with pages := setPage s.pages k { p with turning := false, turned := false },
                     isAnimating := false, pending := Pending.none }
      | Option.none => s
  | _ => s

/-- The constructor state: cover, unopened, unlocked, updateDisplay run
once, over a given page-element stack. -/
def init (pages0 : List (Int × PageEl)) : NState :=
  updateDisplay
    { currentPage := 0, totalPages := 4, isOpened := false, isAnimating := false,
      openedClass := false, pages := pages0, indicator := "", pending := Pending.none }

/-- Modelled from the spec: the repository's HTML page stack is not under
src/; per the spec, the notebook has one page element per content page,
tagged with ordinals 1..totalPages (totalPages = 4), each starting in the
initial presentation state. -/
def stdPages : List (Int × PageEl) :=
  [(1, initPage), (2, initPage), (3, initPage), (4, initPage)]

/-- The externally triggerable steps: the three operations and the four
timer callbacks. -/
inductive Event where
  | doOpen : Event
  | doNext : Event
  | doPrev : Event
  | fireOpen : Event
  | fireTurn : Event
  | fireReturnMid : Event
  | fireReturnEnd : Event
  deriving DecidableEq, Repr

/-- One step of the controller under an event. -/
def stepEv (s : NState) : Event → NState
  | Event.doOpen => openNotebook s
  | Event.doNext => nextPage s
  | Event.doPrev => previousPage s
  | Event.fireOpen => openComplete s
  | Event.fireTurn => turnComplete s
  | Event.fireReturnMid => returnMid s
  | Event.fireReturnEnd => returnComplete s

/-- Run a sequence of events from the constructor state. -/
def run (pages0 : List (Int × PageEl)) (evs : List Event) : NState :=
  evs.foldl stepEv (init pages0)

/-- What the pending field implies about the rest of the state: any
scheduled callback runs under the animation lock, and the page-turn
callbacks were scheduled with currentPage equal to the captured key. -/
def PendingInv (s : NState) : Prop :=
  match s.pending with
  | Pending.none => True
  | Pending.opening _ => s.isAnimating = true
  | Pending.turnEnd k _ =>
      s.isAnimating = true ∧ s.currentPage = k ∧ k < s.totalPages
  | Pending.returnStart k _ => s.isAnimating = true ∧ s.currentPage = k
  | Pending.returnEnd k _ => s.isAnimating = true ∧ s.currentPage = k

/-- Run-time invariant of variant A: the currentPage bound, the fixed
page count, and the pending facts. -/
def Inv0 (s : NState) : Prop :=
  0 ≤ s.currentPage ∧ s.currentPage ≤ s.totalPages + 1 ∧ s.totalPages = 4 ∧
    PendingInv s

/-- Additional invariant when every page key is a content-page ordinal:
the keys stay at least 1 and the cover state has currentPage = 0. -/
def InvK (s : NState) : Prop :=
  (∀ pr ∈ s.pages, (1 : Int) ≤ pr.1) ∧ (s.isOpened = false → s.currentPage = 0)

theorem pendingInv_none (s : NState) (h : PendingInv s)
    (ha : s.isAnimating = false) : s.pending = Pending.none := by
  unfold PendingInv at h
  cases hp : s.pending <;> rw [hp] at h <;> simp_all

theorem findPage_setPage_self (ps : List (Int × PageEl)) (k : Int)
    (p q : PageEl) (h : findPage ps k = some p) :
    findPage (setPage ps k q) k = some q := by
  induction ps with
  | nil => simp [findPage] at h
  | cons hd tl ih =>
      by_cases hk : hd.1 = k
      · simp [findPage, setPage, hk]
      · simp [findPage, setPage, hk] at h ⊢
        exact ih h

theorem setPage_keys (ps : List (Int × PageEl)) (k : Int) (q : PageEl)
    (h : ∀ pr ∈ ps, (1 : Int) ≤ pr.1) :
    ∀ pr ∈ setPage ps k q, (1 : Int) ≤ pr.1 := by
  induction ps with
  | nil => simp [setPage]
  | cons hd tl ih =>
      intro pr hpr
      by_cases hk : hd.1 = k
      · simp only [setPage, if_pos hk] at hpr
        rcases List.mem_cons.mp hpr with h1 | h1
        · rw [h1]; exact h hd (List.mem_cons_self _ _)
        · exact h pr (List.mem_cons_of_mem _ h1)
      · simp only [setPage, if_neg hk] at hpr
        rcases List.mem_cons.mp hpr with h1 | h1
        · rw [h1]; exact h hd (List.mem_cons_self _ _)
        · exact ih (fun x hx => h x (List.mem_cons_of_mem _ hx)) pr h1

theorem findPage_none_of_keys (ps : List (Int × PageEl)) (k : Int)
    (h : ∀ pr ∈ ps, (1 : Int) ≤ pr.1) (hk : k < 1) :
    findPage ps k = Option.none := by
  induction ps with
  | nil => rfl
  | cons hd tl ih =>
      have h1 : (1 : Int) ≤ hd.1 := h hd (by simp)
      have hne : hd.1 ≠ k := by omega
      simp [findPage, hne]
      exact ih fun pr hpr => h pr (by simp [hpr])

theorem inv0_openNotebook (s : NState) (h : Inv0 s) : Inv0 (openNotebook s) := by
  unfold openNotebook
  split
  · exact h
  · obtain ⟨h0, h1, h2, h3⟩ := h
    exact ⟨by simp [initializePageStates], by simp [initializePageStates]; omega,
           by simp [initializePageStates, h2], by simp [PendingInv, initializePageStates]⟩

theorem inv0_openComplete (s : NState) (h : Inv0 s) : Inv0 (openComplete s) := by
  unfold openComplete
  split
  · obtain ⟨h0, h1, h2, h3⟩ := h
    exact ⟨by simp [updateDisplay]; omega, by simp [updateDisplay]; omega,
           by simp [updateDisplay, h2], by simp [PendingInv, updateDisplay]⟩
  · exact h

theorem inv0_nextPage (s : NState) (h : Inv0 s) : Inv0 (nextPage s) := by
  unfold nextPage
  split
  · exact h
  next hg =>
    push_neg at hg
    dsimp only
    obtain ⟨h0, h1, h2, h3⟩ := h
    have hpend : s.pending = Pending.none :=
      pendingInv_none s h3 (by simpa using hg.1)
    split
    next p hp =>
      refine ⟨by simpa using h0, by simpa using h1, by simpa using h2, ?_⟩
      simpa [PendingInv] using hg.2
    next hp =>
      exact ⟨by simpa using h0, by simpa using h1, by simpa using h2,
             by simp [PendingInv, hpend]⟩

theorem inv0_turnComplete (s : NState) (h : Inv0 s) : Inv0 (turnComplete s) := by
  unfold turnComplete
  split
  next k d hpd =>
    split
    next p hp =>
      obtain ⟨h0, h1, h2, h3⟩ := h
      split
      · exact ⟨by simp [updateDisplay]; omega, by simp [updateDisplay],
               by simp [updateDisplay, h2], by simp [PendingInv, updateDisplay]⟩
      next hlt =>
        exact ⟨by simp [updateDisplay]; omega, by simp [updateDisplay]; omega,
               by simp [updateDisplay, h2], by simp [PendingInv, updateDisplay]⟩
    next hp => exact h
  · exact h

theorem inv0_previousPage (s : NState) (h : Inv0 s) : Inv0 (previousPage s) := by
  unfold previousPage
  split
  · exact h
  next hg =>
    push_neg at hg
    obtain ⟨h0, h1, h2, h3⟩ := h
    have hcp : 1 < s.currentPage := by simpa using hg.2
    have hpend : s.pending = Pending.none :=
      pendingInv_none s h3 (by simpa using hg.1)
    dsimp only
    split
    next p hp =>
      split
      · refine ⟨by simp; omega, by simp; omega, by simpa using h2, ?_⟩
        simp [PendingInv]
      · exact ⟨by simp [updateDisplay]; omega, by simp [updateDisplay]; omega,
               by simp [updateDisplay, h2], by simp [PendingInv, updateDisplay, hpend]⟩
    next hp =>
      exact ⟨by simp; omega, by simp; omega, by simpa using h2,
             by simp [PendingInv, hpend]⟩

theorem inv0_returnMid (s : NState) (h : Inv0 s) : Inv0 (returnMid s) := by
  unfold returnMid
  split
  next k d hpd =>
    split
    next p hp =>
      obtain ⟨h0, h1, h2, h3⟩ := h
      have h3k : s.isAnimating = true ∧ s.currentPage = k := by
        simpa [PendingInv, hpd] using h3
      refine ⟨by simpa using h0, by simpa using h1, by simpa using h2, ?_⟩
      simpa [PendingInv] using h3k
    next hp => exact h
  · exact h

theorem inv0_returnComplete (s : NState) (h : Inv0 s) : Inv0 (returnComplete s) := by
  unfold returnComplete
  split
  next k d hpd =>
    split
    next p hp =>
      obtain ⟨h0, h1, h2, h3⟩ := h
      exact ⟨by simp [updateDisplay]; omega, by simp [updateDisplay]; omega,
             by simp [updateDisplay, h2], by simp [PendingInv, updateDisplay]⟩
    next hp => exact h
  · exact h

theorem inv0_step (s : NState) (e : Event) (h : Inv0 s) : Inv0 (stepEv s e) := by
  cases e
  · exact inv0_openNotebook s h
  · exact inv0_nextPage s h
  · exact inv0_previousPage s h
  · exact inv0_openComplete s h
  · exact inv0_turnComplete s h
  · exact inv0_returnMid s h
  · exact inv0_returnComplete s h

theorem inv0_init (pages0 : List (Int × PageEl)) : Inv0 (init pages0) := by
  exact ⟨by simp [init, updateDisplay], by simp [init, updateDisplay],
         by simp [init, updateDisplay], by simp [PendingInv, init, updateDisplay]⟩

theorem inv0_foldl (evs : List Event) (t : NState) (h : Inv0 t) :
    Inv0 (evs.foldl stepEv t) := by
  induction evs generalizing t with
  | nil => exact h
  | cons e evs ih => exact ih (stepEv t e) (inv0_step t e h)

theorem inv0_run (pages0 : List (Int × PageEl)) (evs : List Event) :
    Inv0 (run pages0 evs) :=
  inv0_foldl evs (init pages0) (inv0_init pages0)

theorem map_keys (ps : List (Int × PageEl)) (f : PageEl → PageEl)
    (h : ∀ pr ∈ ps, (1 : Int) ≤ pr.1) :
    ∀ pr ∈ ps.map (fun jp => (jp.1, f jp.2)), (1 : Int) ≤ pr.1 := by
  intro pr hpr
  rcases List.mem_map.mp hpr with ⟨x, hx, hfx⟩
  rw [← hfx]
  exact h x hx

theorem invK_openNotebook (s : NState) (hK : InvK s) : InvK (openNotebook s) := by
  unfold openNotebook
  split
  · exact hK
  · constructor
    · simpa [initializePageStates] using map_keys s.pages _ hK.1
    · simp [initializePageStates]

theorem invK_openComplete (s : NState) (hK : InvK s) : InvK (openComplete s) := by
  unfold openComplete
  split
  · exact ⟨by simpa [updateDisplay] using hK.1, by simpa [updateDisplay] using hK.2⟩
  · exact hK

theorem invK_nextPage (s : NState) (hK : InvK s) : InvK (nextPage s) := by
  unfold nextPage
  split
  · exact hK
  · dsimp only
    split
    next p hp =>
      exact ⟨by simpa using setPage_keys s.pages _ _ hK.1, by simpa using hK.2⟩
    next hp => exact ⟨by simpa using hK.1, by simpa using hK.2⟩

theorem invK_turnComplete (s : NState) (h : Inv0 s) (hK : InvK s) :
    InvK (turnComplete s) := by
  unfold turnComplete
  split
  next k d hpd =>
    split
    next p hp =>
      have hop : s.isOpened = true := by
        by_contra hno
        have hno' : s.isOpened = false := by
          cases hb : s.isOpened
          · rfl
          · exact absurd hb hno
        have hcp0 : s.currentPage = 0 := hK.2 hno'
        have hcpk : s.currentPage = k ∧ k < s.totalPages := by
          have h3 := h.2.2.2
          exact (by simpa [PendingInv, hpd] using h3 : _ ∧ _ ∧ _).2
        have hknone : findPage s.pages k = Option.none :=
          findPage_none_of_keys s.pages k hK.1 (by omega)
        rw [hp] at hknone
        exact Option.noConfusion hknone
      split
      · exact ⟨by simpa [updateDisplay] using setPage_keys s.pages _ _ hK.1,
               by simp [updateDisplay, hop]⟩
      · exact ⟨by simpa [updateDisplay] using setPage_keys s.pages _ _ hK.1,
               by simp [updateDisplay, hop]⟩
    next hp => exact hK
  · exact hK

theorem invK_previousPage (s : NState) (hK : InvK s) : InvK (previousPage s) := by
  unfold previousPage
  split
  · exact hK
  next hg =>
    push_neg at hg
    have hcp : 1 < s.currentPage := by simpa using hg.2
    have hop : s.isOpened = false → False := fun hno => by
      have := hK.2 hno; omega
    dsimp only
    split
    next p hp =>
      split
      · exact ⟨by simpa using setPage_keys s.pages _ _ hK.1,
               fun hno => absurd hno (fun hno => hop hno)⟩
      · exact ⟨by simpa [updateDisplay] using setPage_keys s.pages _ _ hK.1,
               fun hno => absurd hno (fun hno => hop hno)⟩
    next hp =>
      exact ⟨by simpa using hK.1, fun hno => absurd hno (fun hno => hop hno)⟩

theorem invK_returnMid (s : NState) (hK : InvK s) : InvK (returnMid s) := by
  unfold returnMid
  split
  next k d hpd =>
    split
    next p hp =>
      exact ⟨by simpa using setPage_keys s.pages _ _ hK.1, by simpa using hK.2⟩
    next hp => exact hK
  · exact hK

theorem invK_returnComplete (s : NState) (hK : InvK s) : InvK (returnComplete s) := by
  unfold returnComplete
  split
  next k d hpd =>
    split
    next p hp =>
      exact ⟨by simpa [updateDisplay] using setPage_keys s.pages _ _ hK.1,
             by simpa [updateDisplay] using hK.2⟩
    next hp => exact hK
  · exact hK

theorem invK_step (s : NState) (e : Event) (h : Inv0 s) (hK : InvK s) :
    InvK (stepEv s e) := by
  cases e
  · exact invK_openNotebook s hK
  · exact invK_nextPage s hK
  · exact invK_previousPage s hK
  · exact invK_openComplete s hK
  · exact invK_turnComplete s h hK
  · exact invK_returnMid s hK
  · exact invK_returnComplete s hK

theorem invK_init (pages0 : List (Int × PageEl))
    (hkeys : ∀ pr ∈ pages0, (1 : Int) ≤ pr.1) : InvK (init pages0) :=
  ⟨by simpa [init, updateDisplay] using hkeys, by simp [init, updateDisplay]⟩

theorem invK_foldl (evs : List Event) (t : NState) (h : Inv0 t) (hK : InvK t) :
    InvK (evs.foldl stepEv t) := by
  induction evs generalizing t with
  | nil => exact hK
  | cons e evs ih => exact ih (stepEv t e) (inv0_step t e h) (invK_step t e h hK)

theorem invK_run (pages0 : List (Int × PageEl))
    (hkeys : ∀ pr ∈ pages0, (1 : Int) ≤ pr.1) (evs : List Event) :
    InvK (run pages0 evs) :=
  invK_foldl evs (init pages0) (inv0_init pages0) (invK_init pages0 hkeys)

theorem nextPage_cp (s : NState) : (nextPage s).currentPage = s.currentPage := by
  unfold nextPage
  split
  · rfl
  · dsimp only
    split <;> rfl

theorem openComplete_cp (s : NState) :
    (openComplete s).currentPage = s.currentPage := by
  unfold openComplete
  split <;> simp [updateDisplay]

theorem returnMid_cp (s : NState) : (returnMid s).currentPage = s.currentPage := by
  unfold returnMid
  split
  · split <;> rfl
  · rfl

theorem returnComplete_cp (s : NState) :
    (returnComplete s).currentPage = s.currentPage := by
  unfold returnComplete
  split
  · split <;> simp [updateDisplay]
  · rfl

theorem previousPage_delta (s : NState) (hne : previousPage s ≠ s) :
    (previousPage s).currentPage = s.currentPage - 1 := by
  unfold previousPage at hne ⊢
  by_cases hg : s.isAnimating = true ∨ s.currentPage ≤ 1
  · rw [if_pos hg] at hne
    exact absurd rfl hne
  · rw [if_neg hg]
    dsimp only
    split
    next p hp => split <;> simp [updateDisplay]
    next hp => rfl

theorem openNotebook_delta (s : NState)
    (hcp0 : s.isOpened = false → s.currentPage = 0)
    (hne : openNotebook s ≠ s) :
    (openNotebook s).currentPage = s.currentPage + 1 := by
  unfold openNotebook at hne ⊢
  by_cases hg : s.isAnimating = true ∨ s.isOpened = true
  · rw [if_pos hg] at hne
    exact absurd rfl hne
  · rw [if_neg hg]
    push_neg at hg
    have hcp : s.currentPage = 0 := hcp0 (by simpa using hg.2)
    simp [initializePageStates, hcp]

theorem turnComplete_delta (s : NState) (h : Inv0 s)
    (hne : turnComplete s ≠ s) :
    (turnComplete s).currentPage = s.currentPage + 1 := by
  cases hpd : s.pending with
  | turnEnd k d =>
      cases hp : findPage s.pages k with
      | none => exact absurd (by simp [turnComplete, hpd, hp]) hne
      | some p =>
          have hfacts : s.currentPage = k ∧ k < s.totalPages := by
            have h3 := h.2.2.2
            exact (by simpa [PendingInv, hpd] using h3 : _ ∧ _ ∧ _).2
          have hnlt : ¬ s.totalPages < s.currentPage + 1 := by omega
          simp [turnComplete, hpd, hp, hnlt, updateDisplay]
  | none => exact absurd (by simp [turnComplete, hpd]) hne
  | opening d => exact absurd (by simp [turnComplete, hpd]) hne
  | returnStart k d => exact absurd (by simp [turnComplete, hpd]) hne
  | returnEnd k d => exact absurd (by simp [turnComplete, hpd]) hne

theorem nextPage_locked (s : NState) (h : s.isAnimating = true) :
    nextPage s = s := by
  unfold nextPage
  rw [if_pos (Or.inl h)]

theorem nextPage_atEnd (s : NState) (h : s.totalPages ≤ s.currentPage) :
    nextPage s = s := by
  unfold nextPage
  rw [if_pos (Or.inr h)]

theorem previousPage_locked (s : NState) (h : s.isAnimating = true) :
    previousPage s = s := by
  unfold previousPage
  rw [if_pos (Or.inl h)]

theorem previousPage_atStart (s : NState) (h : s.currentPage ≤ 1) :
    previousPage s = s := by
  unfold previousPage
  rw [if_pos (Or.inr h)]

theorem openNotebook_locked (s : NState) (h : s.isAnimating = true) :
    openNotebook s = s := by
  unfold openNotebook
  rw [if_pos (Or.inl h)]

theorem openNotebook_opened (s : NState) (h : s.isOpened = true) :
    openNotebook s = s := by
  unfold openNotebook
  rw [if_pos (Or.inr h)]

/-- C1: for every sequence of open / advance / retreat operations and
their scheduled completions, starting from the constructor state over a
page stack whose data-page keys are content-page ordinals, currentPage
stays within [0, totalPages + 1]; and the only steps that move
currentPage are the open invocation (+1, from the cover), the retreat
invocation (-1) and the page-turn completion (+1), each by exactly one,
so every completed transition changes currentPage by exactly one. -/
theorem claim1_currentPage_bounded_unit_transitions
    (pages0 : List (Int × PageEl)) (hkeys : ∀ pr ∈ pages0, (1 : Int) ≤ pr.1)
    (evs : List Event) :
    (0 ≤ (run pages0 evs).currentPage ∧
      (run pages0 evs).currentPage ≤ (run pages0 evs).totalPages + 1) ∧
    (nextPage (run pages0 evs)).currentPage = (run pages0 evs).currentPage ∧
    (openComplete (run pages0 evs)).currentPage = (run pages0 evs).currentPage ∧
    (returnMid (run pages0 evs)).currentPage = (run pages0 evs).currentPage ∧
    (returnComplete (run pages0 evs)).currentPage = (run pages0 evs).currentPage ∧
    (openNotebook (run pages0 evs) ≠ run pages0 evs →
      (openNotebook (run pages0 evs)).currentPage =
        (run pages0 evs).currentPage + 1) ∧
    (previousPage (run pages0 evs) ≠ run pages0 evs →
      (previousPage (run pages0 evs)).currentPage =
        (run pages0 evs).currentPage - 1) ∧
    (turnComplete (run pages0 evs) ≠ run pages0 evs →
      (turnComplete (run pages0 evs)).currentPage =
        (run pages0 evs).currentPage + 1) := by
  have h0 := inv0_run pages0 evs
  have hK := invK_run pages0 hkeys evs
  exact ⟨⟨h0.1, h0.2.1⟩, nextPage_cp _, openComplete_cp _, returnMid_cp _,
    returnComplete_cp _,
    fun hne => openNotebook_delta _ hK.2 hne,
    fun hne => previousPage_delta _ hne,
    fun hne => turnComplete_delta _ h0 hne⟩

/-- Witness for C1: after opening the notebook, letting the open
animation finish and pressing advance, the bound holds and the pending
turn completion moves currentPage from 1 to 2. -/
theorem claim1_witness :
    0 ≤ (run stdPages [Event.doOpen, Event.fireOpen, Event.doNext]).currentPage ∧
    (turnComplete
        (run stdPages [Event.doOpen, Event.fireOpen, Event.doNext])).currentPage =
      (run stdPages [Event.doOpen, Event.fireOpen, Event.doNext]).currentPage + 1 := by
  have h := claim1_currentPage_bounded_unit_transitions stdPages (by decide)
    [Event.doOpen, Event.fireOpen, Event.doNext]
  exact ⟨h.1.1, h.2.2.2.2.2.2.2 (by decide)⟩

/-- An opened, unlocked state on page 2 whose page stack has no element
with data-page 1: the DOM element for the page being returned to is
missing. -/
def cexMissing : NState :=
  { currentPage := 2, totalPages := 4, isOpened := true, isAnimating := false,
    openedClass := true, pages := [(2, initPage), (3, initPage), (4, initPage)],
    indicator := "Page 2", pending := Pending.none }

/-- C2 is false as stated: retreat invoked when the DOM element for the
page being returned to is missing is not a pure no-op — it decrements
currentPage and leaves the animation lock set. -/
theorem claim2_counterexample :
    previousPage cexMissing ≠ cexMissing ∧
    (previousPage cexMissing).currentPage = 1 ∧
    (previousPage cexMissing).isAnimating = true := by decide

/-- C2 (amended): transitions blocked by the guards (animation in
progress, or currentPage out of range for the operation, or already
opened) are pure no-ops and raise no error; but when a guard passes and
the page DOM element is missing the operation is not a no-op: it leaves
the animation lock set, and retreat additionally decrements currentPage. -/
theorem claim2_amended (s : NState) :
    (s.isAnimating = true →
      nextPage s = s ∧ previousPage s = s ∧ openNotebook s = s) ∧
    (s.totalPages ≤ s.currentPage → nextPage s = s) ∧
    (s.currentPage ≤ 1 → previousPage s = s) ∧
    (s.isOpened = true → openNotebook s = s) ∧
    (s.isAnimating = false → s.currentPage < s.totalPages →
      findPage s.pages s.currentPage = Option.none →
      nextPage s = { s with isAnimating := true }) ∧
    (s.isAnimating = false → 1 < s.currentPage →
      findPage s.pages (s.currentPage - 1) = Option.none →
      previousPage s =
        { s with isAnimating := true, currentPage := s.currentPage - 1 }) := by
  refine ⟨fun h => ⟨nextPage_locked s h, previousPage_locked s h,
      openNotebook_locked s h⟩,
    nextPage_atEnd s, previousPage_atStart s, openNotebook_opened s, ?_, ?_⟩
  · intro ha hcp hf
    unfold nextPage
    rw [if_neg (by push_neg; exact ⟨by simp [ha], by omega⟩)]
    dsimp only
    rw [hf]
  · intro ha hcp hf
    unfold previousPage
    rw [if_neg (by push_neg; exact ⟨by simp [ha], by omega⟩)]
    dsimp only
    rw [hf]

/-- Witness for C2 (amended) at cexMissing: open is a no-op there since
the notebook is already opened, and retreat with the missing element
only decrements currentPage and takes the lock. -/
theorem claim2_amended_witness :
    openNotebook cexMissing = cexMissing ∧
    previousPage cexMissing =
      { cexMissing with isAnimating := true,
                        currentPage := cexMissing.currentPage - 1 } := by
  have h := claim2_amended cexMissing
  exact ⟨h.2.2.2.1 (by decide), h.2.2.2.2.2 (by decide) (by decide) (by decide)⟩

/-- C3 is false as stated: at the initial state (unopened, on the cover)
over the spec-modelled page stack, advance is not a no-op — the guard
does not consult isOpened, and since no element has ordinal 0 the call
leaves the animation lock set. -/
theorem claim3_counterexample :
    (init stdPages).isOpened = false ∧
    nextPage (init stdPages) ≠ init stdPages ∧
    (nextPage (init stdPages)).isAnimating = true := by decide

/-- C3 (amended): advance checks only the animation lock and
currentPage < totalPages, not isOpened.  Under the lock or at or past
the last page it is a no-op; otherwise, when the current page element
exists it starts the page turn and schedules the completion, and when
the element is missing it only sets the animation lock. -/
theorem claim3_amended (s : NState) :
    (s.isAnimating = true ∨ s.totalPages ≤ s.currentPage → nextPage s = s) ∧
    (∀ p, s.isAnimating = false → s.currentPage < s.totalPages →
      findPage s.pages s.currentPage = some p →
      nextPage s =
        { s with isAnimating := true,
                 pages := setPage s.pages s.currentPage { p with turning := true },
                 pending := Pending.turnEnd s.currentPage 600 }) ∧
    (s.isAnimating = false → s.currentPage < s.totalPages →
      findPage s.pages s.currentPage = Option.none →
      nextPage s = { s with isAnimating := true }) := by
  refine ⟨?_, ?_, ?_⟩
  · rintro (h | h)
    · exact nextPage_locked s h
    · exact nextPage_atEnd s h
  · intro p ha hcp hf
    unfold nextPage
    rw [if_neg (by push_neg; exact ⟨by simp [ha], by omega⟩)]
    dsimp only
    rw [hf]
  · intro ha hcp hf
    unfold nextPage
    rw [if_neg (by push_neg; exact ⟨by simp [ha], by omega⟩)]
    dsimp only
    rw [hf]

/-- Witness for C3 (amended): at the initial state over the
spec-modelled page stack, advance only sets the animation lock. -/
theorem claim3_amended_witness :
    nextPage (init stdPages) = { init stdPages with isAnimating := true } := by
  have h := claim3_amended (init stdPages)
  exact h.2.2 (by decide) (by decide) (by decide)

/-- C7: a second open while the first open animation is in flight, or
when the notebook is already opened, leaves the entire controller state
unchanged; openNotebook is idempotent on every state. -/
theorem claim7_open_idempotent (s : NState) :
    (s.isAnimating = true ∨ s.isOpened = true → openNotebook s = s) ∧
    openNotebook (openNotebook s) = openNotebook s := by
  constructor
  · rintro (h | h)
    · exact openNotebook_locked s h
    · exact openNotebook_opened s h
  · by_cases hg : s.isAnimating = true ∨ s.isOpened = true
    · have h1 : openNotebook s = s := by
        rcases hg with h | h
        · exact openNotebook_locked s h
        · exact openNotebook_opened s h
      simp only [h1]
    · have h2 : (openNotebook s).isAnimating = true := by
        unfold openNotebook
        rw [if_neg hg]
        simp [initializePageStates]
      exact openNotebook_locked _ h2

/-- Witness for C7: opening the freshly initialized notebook twice in a
row changes nothing further, and opening again after the open animation
completed (already opened) is a no-op. -/
theorem claim7_witness :
    openNotebook (openNotebook (init stdPages)) = openNotebook (init stdPages) ∧
    openNotebook (openComplete (openNotebook (init stdPages))) =
      openComplete (openNotebook (init stdPages)) := by
  have h1 := claim7_open_idempotent (init stdPages)
  have h2 := claim7_open_idempotent (openComplete (openNotebook (init stdPages)))
  exact ⟨h1.2, h2.1 (Or.inr (by decide))⟩

/-- C8: in every reachable state a scheduled animation callback exists
only while isAnimating is set (at most one page-turn animation in
flight), and whenever isAnimating is set, advance, retreat and open all
leave the state — in particular currentPage — unchanged. -/
theorem claim8_lock_mutual_exclusion (pages0 : List (Int × PageEl))
    (evs : List Event) :
    ((run pages0 evs).pending = Pending.none ∨
      (run pages0 evs).isAnimating = true) ∧
    ∀ t : NState, t.isAnimating = true →
      nextPage t = t ∧ previousPage t = t ∧ openNotebook t = t := by
  constructor
  · have h3 := (inv0_run pages0 evs).2.2.2
    cases ha : (run pages0 evs).isAnimating
    · exact Or.inl (pendingInv_none _ h3 ha)
    · exact Or.inr rfl
  · intro t ht
    exact ⟨nextPage_locked t ht, previousPage_locked t ht, openNotebook_locked t ht⟩

/-- Witness for C8: right after open takes the lock, the three
operations are all no-ops. -/
theorem claim8_witness :
    ((run stdPages [Event.doOpen]).pending = Pending.none ∨
      (run stdPages [Event.doOpen]).isAnimating = true) ∧
    nextPage (run stdPages [Event.doOpen]) = run stdPages [Event.doOpen] ∧
    previousPage (run stdPages [Event.doOpen]) = run stdPages [Event.doOpen] ∧
    openNotebook (run stdPages [Event.doOpen]) = run stdPages [Event.doOpen] := by
  have h := claim8_lock_mutual_exclusion stdPages [Event.doOpen]
  exact ⟨h.1, h.2 _ (by decide)⟩

/-- C4: when advance completes from page k with k < totalPages (lock
free, element for page k present and not hidden), the resulting state is
page k + 1 with the lock released, page k carries "turned" and not
"turning", and it carries "hidden" exactly when k equals totalPages —
which never happens here, advance being valid only for k < totalPages. -/
theorem claim4_advance_completion (s : NState) (k : Int) (p : PageEl)
    (hA : s.isAnimating = false) (hk : s.currentPage = k)
    (hkN : k < s.totalPages) (hp : findPage s.pages k = some p)
    (hph : p.hidden = false) :
    (turnComplete (nextPage s)).currentPage = k + 1 ∧
    (turnComplete (nextPage s)).isAnimating = false ∧
    findPage (turnComplete (nextPage s)).pages k =
      some { p with turning := false, turned := true } ∧
    (({ p with turning := false, turned := true } : PageEl).hidden = true ↔
      k = s.totalPages) := by
  subst hk
  have hguard : ¬(s.isAnimating = true ∨ s.totalPages ≤ s.currentPage) := by
    push_neg
    exact ⟨by simp [hA], by omega⟩
  have h1 : nextPage s =
      { s with isAnimating := true,
               pages := setPage s.pages s.currentPage { p with turning := true },
               pending := Pending.turnEnd s.currentPage 600 } := by
    unfold nextPage
    rw [if_neg hguard]
    dsimp only
    rw [hp]
  have hfind : findPage (setPage s.pages s.currentPage { p with turning := true })
      s.currentPage = some { p with turning := true } :=
    findPage_setPage_self s.pages s.currentPage p _ hp
  rw [h1]
  unfold turnComplete
  dsimp only
  rw [hfind]
  dsimp only
  rw [if_neg (show ¬ s.totalPages < s.currentPage + 1 by omega)]
  refine ⟨by simp [updateDisplay], by simp [updateDisplay], ?_, ?_⟩
  · simp only [updateDisplay]
    exact findPage_setPage_self _ _ _ _ hfind
  · exact ⟨fun h => absurd h (by simp [hph]), fun h => absurd h (by omega)⟩

/-- Witness for C4: advancing from page 1 of the freshly opened notebook
and letting the turn complete lands on page 2 with page 1 turned. -/
theorem claim4_witness :
    (turnComplete (nextPage (run stdPages [Event.doOpen, Event.fireOpen]))).currentPage = 2 ∧
    (turnComplete (nextPage (run stdPages [Event.doOpen, Event.fireOpen]))).isAnimating = false ∧
    findPage (turnComplete (nextPage (run stdPages [Event.doOpen, Event.fireOpen]))).pages 1 =
      some { initPage with turning := false, turned := true } := by
  have h := claim4_advance_completion (run stdPages [Event.doOpen, Event.fireOpen])
    1 initPage (by decide) (by decide) (by decide) (by decide) (by decide)
  exact ⟨h.1, h.2.1, h.2.2.1⟩

/-- C5: retreat is valid only when the lock is free and currentPage > 1
(otherwise a no-op); when valid (element for the target page present) it
decrements currentPage by exactly one, and if the target page was
"turned" it replays the reverse animation — holding the lock through
both timed steps — and restores the page to the initial presentation
state before releasing the lock, otherwise it removes "hidden" and
releases the lock immediately. -/
theorem claim5_retreat (s : NState) (p : PageEl) :
    (s.isAnimating = true ∨ s.currentPage ≤ 1 → previousPage s = s) ∧
    (s.isAnimating = false → 1 < s.currentPage →
      findPage s.pages (s.currentPage - 1) = some p →
      (previousPage s).currentPage = s.currentPage - 1 ∧
      (p.turned = true →
        (previousPage s).isAnimating = true ∧
        (returnMid (previousPage s)).isAnimating = true ∧
        (returnComplete (returnMid (previousPage s))).isAnimating = false ∧
        (returnComplete (returnMid (previousPage s))).currentPage =
          s.currentPage - 1 ∧
        findPage (returnComplete (returnMid (previousPage s))).pages
          (s.currentPage - 1) = some initPage) ∧
      (p.turned = false →
        (previousPage s).isAnimating = false ∧
        findPage (previousPage s).pages (s.currentPage - 1) =
          some { p with hidden := false })) := by
  constructor
  · rintro (h | h)
    · exact previousPage_locked s h
    · exact previousPage_atStart s h
  · intro hA hcp hp
    have hguard : ¬(s.isAnimating = true ∨ s.currentPage ≤ 1) := by
      push_neg
      exact ⟨by simp [hA], by omega⟩
    by_cases hpt : p.turned = true
    · have h1 : previousPage s =
          { s with isAnimating := true, currentPage := s.currentPage - 1,
                   pages := setPage s.pages (s.currentPage - 1)
                     { p with hidden := false, transform := "rotateY(-180deg)" },
                   pending := Pending.returnStart (s.currentPage - 1) 50 } := by
        unfold previousPage
        rw [if_neg hguard]
        dsimp only
        rw [hp]
        dsimp only
        rw [if_pos hpt]
      have hfind1 : findPage (setPage s.pages (s.currentPage - 1)
            { p with hidden := false, transform := "rotateY(-180deg)" })
          (s.currentPage - 1) =
          some { p with hidden := false, transform := "rotateY(-180deg)" } :=
        findPage_setPage_self s.pages (s.currentPage - 1) p _ hp
      have h2 : returnMid (previousPage s) =
          { s with isAnimating := true, currentPage := s.currentPage - 1,
                   pages := setPage (setPage s.pages (s.currentPage - 1)
                       { p with hidden := false, transform := "rotateY(-180deg)" })
                     (s.currentPage - 1)
                     { p with turning := true, hidden := false, transform := "" },
                   pending := Pending.returnEnd (s.currentPage - 1) 600 } := by
        rw [h1]
        unfold returnMid
        dsimp only
        rw [hfind1]
      have hfind2 : findPage (setPage (setPage s.pages (s.currentPage - 1)
              { p with hidden := false, transform := "rotateY(-180deg)" })
            (s.currentPage - 1)
            { p with turning := true, hidden := false, transform := "" })
          (s.currentPage - 1) =
          some { p with turning := true, hidden := false, transform := "" } :=
        findPage_setPage_self _ _ _ _ hfind1
      refine ⟨by rw [h1], fun hto => ?_, fun hto => absurd hpt (by simp [hto])⟩
      have h3 : returnComplete (returnMid (previousPage s)) =
          updateDisplay
            { s with isAnimating := false, currentPage := s.currentPage - 1,
                     pages := setPage (setPage (setPage s.pages (s.currentPage - 1)
                           { p with hidden := false,
                                    transform := "rotateY(-180deg)" })
                         (s.currentPage - 1)
                         { p with turning := true, hidden := false, transform := "" })
                       (s.currentPage - 1)
                       { p with turning := false, turned := false, hidden := false,
                                transform := "" },
                     pending := Pending.none } := by
        rw [h2]
        unfold returnComplete
        dsimp only
        rw [hfind2]
      refine ⟨by rw [h1], by rw [h2], by rw [h3]; simp [updateDisplay],
        by rw [h3]; simp [updateDisplay], ?_⟩
      rw [h3]
      simp only [updateDisplay]
      have := findPage_setPage_self _ (s.currentPage - 1)
        { p with turning := true, hidden := false, transform := "" }
        { p with turning := false, turned := false, hidden := false, transform := "" }
        hfind2
      simpa [initPage] using this
    · have hptf : p.turned = false := by
        cases hb : p.turned
        · rfl
        · exact absurd hb hpt
      have h1 : previousPage s =
          updateDisplay
            { s with isAnimating := false, currentPage := s.currentPage - 1,
                     pages := setPage s.pages (s.currentPage - 1)
                       { p with hidden := false } } := by
        unfold previousPage
        rw [if_neg hguard]
        dsimp only
        rw [hp]
        dsimp only
        rw [if_neg (by simp [hptf])]
      refine ⟨by rw [h1]; simp [updateDisplay], fun hto => absurd hto hpt,
        fun hto => ⟨by rw [h1]; simp [updateDisplay], ?_⟩⟩
      rw [h1]
      simp only [updateDisplay]
      exact findPage_setPage_self _ _ _ _ hp

/-- Witness for C5: retreating from page 2 of a run in which page 1 was
turned restores page 1 to the initial presentation state and lands on
page 1 with the lock released. -/
theorem claim5_witness :
    (previousPage (run stdPages
        [Event.doOpen, Event.fireOpen, Event.doNext, Event.fireTurn])).currentPage = 1 ∧
    (returnComplete (returnMid (previousPage (run stdPages
        [Event.doOpen, Event.fireOpen, Event.doNext, Event.fireTurn])))).isAnimating
      = false ∧
    findPage (returnComplete (returnMid (previousPage (run stdPages
        [Event.doOpen, Event.fireOpen, Event.doNext, Event.fireTurn])))).pages 1 =
      some initPage := by
  have h := claim5_retreat
    (run stdPages [Event.doOpen, Event.fireOpen, Event.doNext, Event.fireTurn])
    { initPage with turning := false, turned := true }
  have h2 := h.2 (by decide) (by decide) (by decide)
  have h3 := h2.2.1 (by decide)
  exact ⟨h2.1, h3.2.2.1, h3.2.2.2.2⟩

/-- C6: updateDisplay is a pure projection of currentPage: it changes no
controller state, and writes "Cover" at currentPage 0, "Page k" for
1 <= k <= totalPages, and "End" past totalPages. -/
theorem claim6_indicator_projection (s : NState) (hN : 0 ≤ s.totalPages) :
    (updateDisplay s).currentPage = s.currentPage ∧
    (updateDisplay s).totalPages = s.totalPages ∧
    (updateDisplay s).isOpened = s.isOpened ∧
    (updateDisplay s).isAnimating = s.isAnimating ∧
    (updateDisplay s).openedClass = s.openedClass ∧
    (updateDisplay s).pages = s.pages ∧
    (updateDisplay s).pending = s.pending ∧
    (s.currentPage = 0 → (updateDisplay s).indicator = "Cover") ∧
    (1 ≤ s.currentPage → s.currentPage ≤ s.totalPages →
      (updateDisplay s).indicator = "Page " ++ toString s.currentPage) ∧
    (s.totalPages < s.currentPage → (updateDisplay s).indicator = "End") := by
  refine ⟨rfl, rfl, rfl, rfl, rfl, rfl, rfl, ?_, ?_, ?_⟩
  · intro hc
    simp [updateDisplay, indicatorText, hc]
  · intro h1 h2
    simp [updateDisplay, indicatorText,
      show ¬ s.currentPage = 0 by omega, show ¬ s.currentPage > s.totalPages by omega]
  · intro h1
    simp [updateDisplay, indicatorText,
      show ¬ s.currentPage = 0 by omega, show s.currentPage > s.totalPages by omega]

/-- Witness for C6 at concrete states with totalPages = 4: currentPage 2
shows "Page 2", 0 shows "Cover", 5 shows "End", and controller state is
untouched. -/
theorem claim6_witness :
    (updateDisplay cexMissing).indicator = "Page 2" ∧
    (updateDisplay { cexMissing with currentPage := 0 }).indicator = "Cover" ∧
    (updateDisplay { cexMissing with currentPage := 5 }).indicator = "End" ∧
    (updateDisplay cexMissing).currentPage = cexMissing.currentPage := by
  have h1 := claim6_indicator_projection cexMissing (by decide)
  have h2 := claim6_indicator_projection { cexMissing with currentPage := 0 } (by decide)
  have h3 := claim6_indicator_projection { cexMissing with currentPage := 5 } (by decide)
  refine ⟨?_, ?_, ?_, h1.1⟩
  · rw [h1.2.2.2.2.2.2.2.2.1 (by decide) (by decide)]
    decide
  · exact h2.2.2.2.2.2.2.2.1 (by decide)
  · exact h3.2.2.2.2.2.2.2.2.2 (by decide)

/-- JavaScript falsiness of a stored touch coordinate: null or 0 (the
touchend handler's early-return check). -/
def jsFalsy : Option Int → Bool
  | Option.none => true
  | some x => x == 0

/-- Which navigation call the touchend handler makes. -/
inductive NavAction where
  | next : NavAction
  | prev : NavAction
  deriving DecidableEq, Repr

/-- The decision logic of the touchend handler: early return on falsy
recorded start coordinates; then navigate only when the horizontal
displacement strictly exceeds the vertical displacement and the 50-unit
threshold, on an opened, non-animating controller; swiping left (positive
diffX) advances, swiping right retreats. -/
def touchNav (opened animating : Bool) (startX startY : Option Int)
    (endX endY : Int) : Option NavAction :=
  if jsFalsy startX || jsFalsy startY then Option.none
  else
    let diffX := startX.getD 0 - endX
    let diffY := startY.getD 0 - endY
    if diffY.natAbs < diffX.natAbs ∧ 50 < diffX.natAbs then
      if opened = true ∧ animating = false then
        if 0 < diffX then some NavAction.next else some NavAction.prev
      else Option.none
    else Option.none

/-- The touchend handler: dispatch the decided navigation call on the
controller. -/
def touchEnd (s : NState) (startX startY : Option Int) (endX endY : Int) :
    NState :=
  match touchNav s.isOpened s.isAnimating startX startY endX endY with
  | some NavAction.next => nextPage s
  | some NavAction.prev => previousPage s
  | Option.none => s

/-- C9 is false as stated: on an opened, non-animating notebook, a swipe
recorded from (0, 10) to (60, 0) has horizontal displacement 60, which
strictly exceeds both the vertical displacement 10 and the 50-unit
threshold, yet triggers no navigation — the handler treats the start
coordinate 0 as missing (JavaScript falsiness) and drops the gesture. -/
theorem claim9_counterexample :
    ((10 : Int) - 0).natAbs < ((0 : Int) - 60).natAbs ∧
    50 < ((0 : Int) - 60).natAbs ∧
    (run stdPages [Event.doOpen, Event.fireOpen, Event.doNext,
      Event.fireTurn]).isOpened = true ∧
    (run stdPages [Event.doOpen, Event.fireOpen, Event.doNext,
      Event.fireTurn]).isAnimating = false ∧
    touchNav true false (some 0) (some 10) 60 0 = Option.none ∧
    touchEnd (run stdPages [Event.doOpen, Event.fireOpen, Event.doNext,
        Event.fireTurn]) (some 0) (some 10) 60 0 =
      run stdPages [Event.doOpen, Event.fireOpen, Event.doNext,
        Event.fireTurn] := by decide

/-- C9 (amended): on an opened, non-animating notebook, a recorded swipe
triggers navigation exactly when both recorded start coordinates are
truthy (non-null and non-zero) and the horizontal displacement strictly
exceeds both the vertical displacement and the 50-unit threshold; the
direction selects the call: positive diffX (leftward swipe) advances,
negative retreats. -/
theorem claim9_amended (startX startY : Option Int) (endX endY : Int) :
    (touchNav true false startX startY endX endY ≠ Option.none ↔
      (jsFalsy startX = false ∧ jsFalsy startY = false ∧
        (startY.getD 0 - endY).natAbs < (startX.getD 0 - endX).natAbs ∧
        50 < (startX.getD 0 - endX).natAbs)) ∧
    (jsFalsy startX = false → jsFalsy startY = false →
      (startY.getD 0 - endY).natAbs < (startX.getD 0 - endX).natAbs →
      50 < (startX.getD 0 - endX).natAbs →
      ((0 < startX.getD 0 - endX →
          touchNav true false startX startY endX endY = some NavAction.next) ∧
        (startX.getD 0 - endX ≤ 0 →
          touchNav true false startX startY endX endY = some NavAction.prev))) := by
  constructor
  · constructor
    · intro hne
      by_cases hf : (jsFalsy startX || jsFalsy startY) = true
      · exact absurd (by simp [touchNav, hf]) hne
      · simp only [Bool.or_eq_true] at hf
        push_neg at hf
        by_cases hd : (startY.getD 0 - endY).natAbs < (startX.getD 0 - endX).natAbs ∧
            50 < (startX.getD 0 - endX).natAbs
        · exact ⟨by simpa using hf.1, by simpa using hf.2, hd.1, hd.2⟩
        · exact absurd (by
            unfold touchNav
            rw [if_neg (by simpa [Bool.or_eq_true] using hf)]
            dsimp only
            rw [if_neg hd]) hne
    · rintro ⟨h1, h2, h3, h4⟩
      unfold touchNav
      rw [if_neg (by simp [h1, h2])]
      dsimp only
      rw [if_pos ⟨h3, h4⟩]
      rw [if_pos ⟨rfl, rfl⟩]
      split <;> simp
  · intro h1 h2 h3 h4
    constructor <;> intro h5
    · unfold touchNav
      rw [if_neg (by simp [h1, h2])]
      dsimp only
      rw [if_pos ⟨h3, h4⟩]
      rw [if_pos ⟨rfl, rfl⟩]
      rw [if_pos h5]
    · unfold touchNav
      rw [if_neg (by simp [h1, h2])]
      dsimp only
      rw [if_pos ⟨h3, h4⟩]
      rw [if_pos ⟨rfl, rfl⟩]
      rw [if_neg (by omega)]

/-- Witness for C9 (amended): a leftward swipe of 60 units (10 vertical)
advances, a rightward one retreats, and a 40-unit swipe (below the
threshold) triggers nothing. -/
theorem claim9_amended_witness :
    touchNav true false (some 100) (some 110) 40 100 = some NavAction.next ∧
    touchNav true false (some 100) (some 110) 160 100 = some NavAction.prev ∧
    touchNav true false (some 100) (some 110) 60 100 = Option.none := by
  have h := claim9_amended (some 100) (some 110) 40 100
  have h2 := claim9_amended (some 100) (some 110) 160 100
  have h3 := claim9_amended (some 100) (some 110) 60 100
  refine ⟨(h.2 (by decide) (by decide) (by decide) (by decide)).1 (by decide),
    (h2.2 (by decide) (by decide) (by decide) (by decide)).2 (by decide), ?_⟩
  by_contra hne
  exact absurd (h3.1.mp hne).2.2.2 (by decide)

namespace Variant2

/-- Controller state for variant B (src/unnamed/part_000): the same
controller fields as variant A plus the two navigation-button disabled
flags its updateDisplay writes. -/
structure BState where
  currentPage : Int
  totalPages : Int
  isOpened : Bool
  isAnimating : Bool
  openedClass : Bool
  pages : List (Int × PageEl)
  indicator : String
  pending : Pending
  prevDisabled : Bool
  nextDisabled : Bool
  deriving DecidableEq, Repr

/-- updateDisplay of variant B: writes the indicator and the two button
disabled flags. -/
def updateDisplay (s : BState) : BState :=
  { s with indicator := indicatorText s.currentPage s.totalPages,
           prevDisabled := decide (s.currentPage ≤ 1),
           nextDisabled := decide (s.totalPages ≤ s.currentPage) }

/-- initializePageStates of variant B (identical body to variant A). -/
def initializePageStates (s : BState) : BState :=
  { s with pages := s.pages.map fun jp =>
      (jp.1, { jp.2 with transform := "", turned := false, hidden := false }) }

/-- openNotebook of variant B: same guards and effects as variant A, but
the completion is scheduled after 1000 ms. -/
def openNotebook (s : BState) : BState :=
  if s.isAnimating = true ∨ s.isOpened = true then s
  else
    let s1 := { s with isAnimating := true, isOpened := true, currentPage := 1,
                       openedClass := true }
    let s2 := initializePageStates s1
    { s2 with pending := Pending.opening 1000 }

/-- The open-completion callback of variant B. -/
def openComplete (s : BState) : BState :=
  match s.pending with
  | Pending.opening _ =>
      updateDisplay { s with isAnimating := false, pending := Pending.none }
  | _ => s

/-- nextPage of variant B: same as variant A with a 1000 ms turn delay. -/
def nextPage (s : BState) : BState :=
  if s.isAnimating = true ∨ s.totalPages ≤ s.currentPage then s
  else
    let s1 := { s with isAnimating := true }
    match findPage s1.pages s1.currentPage with
    | some p =>
        { s1 with pages := setPage s1.pages s1.currentPage { p with turning := true },
                  pending := Pending.turnEnd s1.currentPage 1000 }
    | Option.none => s1

/-- The turn-completion callback of variant B (identical body to
variant A). -/
def turnComplete (s : BState) : BState :=
  match s.pending with
  | Pending.turnEnd k _ =>
      match findPage s.pages k with
      | some p =>
          let p1 := { p with turning := false, turned := true }
          if s.totalPages < s.currentPage + 1 then
            updateDisplay
              { s with pages := setPage s.pages k { p1 with hidden := true },
                       currentPage := s.totalPages + 1,
                       isAnimating := false, pending := Pending.none }
          else
            updateDisplay
              { s with pages := setPage s.pages k p1,
                       currentPage := s.currentPage + 1,
                       isAnimating := false, pending := Pending.none }
      | Option.none => s
  | _ => s

/-- previousPage of variant B: identical to variant A (the 50 ms outer
delay is the same in both sources). -/
def previousPage (s : BState) : BState :=
  if s.isAnimating = true ∨ s.currentPage ≤ 1 then s
  else
    let s1 := { s with isAnimating := true, currentPage := s.currentPage - 1 }
    match findPage s1.pages s1.currentPage with
    | some p =>
        if p.turned = true then
          { s1 with pages := setPage s1.pages s1.currentPage
                      { p with hidden := false, transform := "rotateY(-180deg)" },
                    pending := Pending.returnStart s1.currentPage 50 }
        else
          updateDisplay
            { s1 with pages := setPage s1.pages s1.currentPage { p with hidden := false },
                      isAnimating := false }
    | Option.none => s1

/-- The outer return callback of variant B: schedules the inner step
after 1000 ms instead of 600 ms. -/
def returnMid (s : BState) : BState :=
  match s.pending with
  | Pending.returnStart k _ =>
      match findPage s.pages k with
      | some p =>
          { s with pages := setPage s.pages k { p with turning := true, transform := "" },
                   pending := Pending.returnEnd k 1000 }
      | Option.none => s
  | _ => s

/-- The inner return callback of variant B (identical body to
variant A). -/
def returnComplete (s : BState) : BState :=
  match s.pending with
  | Pending.returnEnd k _ =>
      match findPage s.pages k with
      | some p =>
          updateDisplay
            { s with pages := setPage s.pages k { p with turning := false, turned := false },
                     isAnimating := false, pending := Pending.none }
      | Option.none => s
  | _ => s

/-- The constructor state of variant B. -/
def init (pages0 : List (Int × PageEl)) : BState :=
  updateDisplay
    { currentPage := 0, totalPages := 4, isOpened := false, isAnimating := false,
      openedClass := false, pages := pages0, indicator := "", pending := Pending.none,
      prevDisabled := false, nextDisabled := false }

end Variant2

/-- The scheduled callback stripped of its delay: which callback and the
captured page key. -/
inductive PendingShape where
  | nothing : PendingShape
  | opening : PendingShape
  | turnEnd : Int → PendingShape
  | returnStart : Int → PendingShape
  | returnEnd : Int → PendingShape
  deriving DecidableEq, Repr

/-- Forget the delay of a scheduled callback. -/
def shape : Pending → PendingShape
  | Pending.none => PendingShape.nothing
  | Pending.opening _ => PendingShape.opening
  | Pending.turnEnd k _ => PendingShape.turnEnd k
  | Pending.returnStart k _ => PendingShape.returnStart k
  | Pending.returnEnd k _ => PendingShape.returnEnd k

/-- Correspondence between the two variants: equal controller fields,
"opened" class, page presentation, indicator text, and the same scheduled
callback up to its delay. -/
def rel (sA : NState) (sB : Variant2.BState) : Prop :=
  sB.currentPage = sA.currentPage ∧ sB.totalPages = sA.totalPages ∧
  sB.isOpened = sA.isOpened ∧ sB.isAnimating = sA.isAnimating ∧
  sB.openedClass = sA.openedClass ∧ sB.pages = sA.pages ∧
  sB.indicator = sA.indicator ∧ shape sB.pending = shape sA.pending

theorem shape_eq_nothing (q : Pending) (h : shape q = PendingShape.nothing) :
    q = Pending.none := by
  cases q <;> simp_all [shape]

theorem shape_eq_opening (q : Pending) (h : shape q = PendingShape.opening) :
    ∃ d, q = Pending.opening d := by
  cases q <;> simp_all [shape]

theorem shape_eq_turnEnd (q : Pending) (k : Int)
    (h : shape q = PendingShape.turnEnd k) : ∃ d, q = Pending.turnEnd k d := by
  cases q <;> simp_all [shape]

theorem shape_eq_returnStart (q : Pending) (k : Int)
    (h : shape q = PendingShape.returnStart k) :
    ∃ d, q = Pending.returnStart k d := by
  cases q <;> simp_all [shape]

theorem shape_eq_returnEnd (q : Pending) (k : Int)
    (h : shape q = PendingShape.returnEnd k) :
    ∃ d, q = Pending.returnEnd k d := by
  cases q <;> simp_all [shape]

theorem rel_openNotebook (sA : NState) (sB : Variant2.BState) (hrel : rel sA sB) :
    rel (openNotebook sA) (Variant2.openNotebook sB) := by
  obtain ⟨e1, e2, e3, e4, e5, e6, e7, e8⟩ := hrel
  unfold openNotebook Variant2.openNotebook
  dsimp only
  simp only [e1, e2, e3, e4, e5, e6, e7]
  by_cases hg : sA.isAnimating = true ∨ sA.isOpened = true
  · rw [if_pos hg, if_pos hg]
    exact ⟨e1, e2, e3, e4, e5, e6, e7, e8⟩
  · rw [if_neg hg, if_neg hg]
    exact ⟨rfl, rfl, rfl, rfl, rfl,
      by simp [initializePageStates, Variant2.initializePageStates], rfl, rfl⟩

theorem rel_nextPage (sA : NState) (sB : Variant2.BState) (hrel : rel sA sB) :
    rel (nextPage sA) (Variant2.nextPage sB) := by
  obtain ⟨e1, e2, e3, e4, e5, e6, e7, e8⟩ := hrel
  unfold nextPage Variant2.nextPage
  dsimp only
  simp only [e1, e2, e3, e4, e5, e6, e7]
  by_cases hg : sA.isAnimating = true ∨ sA.totalPages ≤ sA.currentPage
  · rw [if_pos hg, if_pos hg]
    exact ⟨e1, e2, e3, e4, e5, e6, e7, e8⟩
  · rw [if_neg hg, if_neg hg]
    cases hfp : findPage sA.pages sA.currentPage with
    | some p => exact ⟨rfl, rfl, rfl, rfl, rfl, rfl, rfl, rfl⟩
    | none => exact ⟨rfl, rfl, rfl, rfl, rfl, rfl, rfl, e8⟩

theorem rel_previousPage (sA : NState) (sB : Variant2.BState)
    (hrel : rel sA sB) :
    rel (previousPage sA) (Variant2.previousPage sB) := by
  obtain ⟨e1, e2, e3, e4, e5, e6, e7, e8⟩ := hrel
  unfold previousPage Variant2.previousPage
  dsimp only
  simp only [e1, e2, e3, e4, e5, e6, e7]
  by_cases hg : sA.isAnimating = true ∨ sA.currentPage ≤ 1
  · rw [if_pos hg, if_pos hg]
    exact ⟨e1, e2, e3, e4, e5, e6, e7, e8⟩
  · rw [if_neg hg, if_neg hg]
    cases hfp : findPage sA.pages (sA.currentPage - 1) with
    | some p =>
        dsimp only
        by_cases hpt : p.turned = true
        · rw [if_pos hpt, if_pos hpt]
          exact ⟨rfl, rfl, rfl, rfl, rfl, rfl, rfl, rfl⟩
        · rw [if_neg hpt, if_neg hpt]
          unfold updateDisplay Variant2.updateDisplay
          exact ⟨rfl, rfl, rfl, rfl, rfl, rfl, rfl, e8⟩
    | none => exact ⟨rfl, rfl, rfl, rfl, rfl, rfl, rfl, e8⟩

theorem rel_openComplete (sA : NState) (sB : Variant2.BState)
    (hrel : rel sA sB) :
    rel (openComplete sA) (Variant2.openComplete sB) := by
  obtain ⟨e1, e2, e3, e4, e5, e6, e7, e8⟩ := hrel
  cases hpa : sA.pending with
  | opening d =>
      obtain ⟨dB, hpb⟩ := shape_eq_opening sB.pending (by rw [e8, hpa]; rfl)
      unfold openComplete Variant2.openComplete
      rw [hpa, hpb]
      dsimp only
      unfold updateDisplay Variant2.updateDisplay
      dsimp only
      simp only [e1, e2, e3, e4, e5, e6, e7]
      exact ⟨rfl, rfl, rfl, rfl, rfl, rfl, rfl, rfl⟩
  | none =>
      have hpb := shape_eq_nothing sB.pending (by rw [e8, hpa]; rfl)
      unfold openComplete Variant2.openComplete
      rw [hpa, hpb]
      exact ⟨e1, e2, e3, e4, e5, e6, e7, e8⟩
  | turnEnd k d =>
      obtain ⟨dB, hpb⟩ := shape_eq_turnEnd sB.pending k (by rw [e8, hpa]; rfl)
      unfold openComplete Variant2.openComplete
      rw [hpa, hpb]
      exact ⟨e1, e2, e3, e4, e5, e6, e7, e8⟩
  | returnStart k d =>
      obtain ⟨dB, hpb⟩ := shape_eq_returnStart sB.pending k (by rw [e8, hpa]; rfl)
      unfold openComplete Variant2.openComplete
      rw [hpa, hpb]
      exact ⟨e1, e2, e3, e4, e5, e6, e7, e8⟩
  | returnEnd k d =>
      obtain ⟨dB, hpb⟩ := shape_eq_returnEnd sB.pending k (by rw [e8, hpa]; rfl)
      unfold openComplete Variant2.openComplete
      rw [hpa, hpb]
      exact ⟨e1, e2, e3, e4, e5, e6, e7, e8⟩

theorem rel_turnComplete (sA : NState) (sB : Variant2.BState)
    (hrel : rel sA sB) :
    rel (turnComplete sA) (Variant2.turnComplete sB) := by
  obtain ⟨e1, e2, e3, e4, e5, e6, e7, e8⟩ := hrel
  cases hpa : sA.pending with
  | turnEnd k d =>
      obtain ⟨dB, hpb⟩ := shape_eq_turnEnd sB.pending k (by rw [e8, hpa]; rfl)
      unfold turnComplete Variant2.turnComplete
      rw [hpa, hpb]
      dsimp only
      simp only [e1, e2, e3, e4, e5, e6, e7]
      cases hfp : findPage sA.pages k with
      | some p =>
          dsimp only
          by_cases hlt : sA.totalPages < sA.currentPage + 1
          · rw [if_pos hlt, if_pos hlt]
            unfold updateDisplay Variant2.updateDisplay
            exact ⟨rfl, rfl, rfl, rfl, rfl, rfl, rfl, rfl⟩
          · rw [if_neg hlt, if_neg hlt]
            unfold updateDisplay Variant2.updateDisplay
            exact ⟨rfl, rfl, rfl, rfl, rfl, rfl, rfl, rfl⟩
      | none => exact ⟨e1, e2, e3, e4, e5, e6, e7, e8⟩
  | none =>
      have hpb := shape_eq_nothing sB.pending (by rw [e8, hpa]; rfl)
      unfold turnComplete Variant2.turnComplete
      rw [hpa, hpb]
      exact ⟨e1, e2, e3, e4, e5, e6, e7, e8⟩
  | opening d =>
      obtain ⟨dB, hpb⟩ := shape_eq_opening sB.pending (by rw [e8, hpa]; rfl)
      unfold turnComplete Variant2.turnComplete
      rw [hpa, hpb]
      exact ⟨e1, e2, e3, e4, e5, e6, e7, e8⟩
  | returnStart k d =>
      obtain ⟨dB, hpb⟩ := shape_eq_returnStart sB.pending k (by rw [e8, hpa]; rfl)
      unfold turnComplete Variant2.turnComplete
      rw [hpa, hpb]
      exact ⟨e1, e2, e3, e4, e5, e6, e7, e8⟩
  | returnEnd k d =>
      obtain ⟨dB, hpb⟩ := shape_eq_returnEnd sB.pending k (by rw [e8, hpa]; rfl)
      unfold turnComplete Variant2.turnComplete
      rw [hpa, hpb]
      exact ⟨e1, e2, e3, e4, e5, e6, e7, e8⟩

theorem rel_returnMid (sA : NState) (sB : Variant2.BState) (hrel : rel sA sB) :
    rel (returnMid sA) (Variant2.returnMid sB) := by
  obtain ⟨e1, e2, e3, e4, e5, e6, e7, e8⟩ := hrel
  cases hpa : sA.pending with
  | returnStart k d =>
      obtain ⟨dB, hpb⟩ := shape_eq_returnStart sB.pending k (by rw [e8, hpa]; rfl)
      unfold returnMid Variant2.returnMid
      rw [hpa, hpb]
      dsimp only
      simp only [e1, e2, e3, e4, e5, e6, e7]
      cases hfp : findPage sA.pages k with
      | some p => exact ⟨rfl, rfl, rfl, rfl, rfl, rfl, rfl, rfl⟩
      | none => exact ⟨e1, e2, e3, e4, e5, e6, e7, e8⟩
  | none =>
      have hpb := shape_eq_nothing sB.pending (by rw [e8, hpa]; rfl)
      unfold returnMid Variant2.returnMid
      rw [hpa, hpb]
      exact ⟨e1, e2, e3, e4, e5, e6, e7, e8⟩
  | opening d =>
      obtain ⟨dB, hpb⟩ := shape_eq_opening sB.pending (by rw [e8, hpa]; rfl)
      unfold returnMid Variant2.returnMid
      rw [hpa, hpb]
      exact ⟨e1, e2, e3, e4, e5, e6, e7, e8⟩
  | turnEnd k d =>
      obtain ⟨dB, hpb⟩ := shape_eq_turnEnd sB.pending k (by rw [e8, hpa]; rfl)
      unfold returnMid Variant2.returnMid
      rw [hpa, hpb]
      exact ⟨e1, e2, e3, e4, e5, e6, e7, e8⟩
  | returnEnd k d =>
      obtain ⟨dB, hpb⟩ := shape_eq_returnEnd sB.pending k (by rw [e8, hpa]; rfl)
      unfold returnMid Variant2.returnMid
      rw [hpa, hpb]
      exact ⟨e1, e2, e3, e4, e5, e6, e7, e8⟩

theorem rel_returnComplete (sA : NState) (sB : Variant2.BState)
    (hrel : rel sA sB) :
    rel (returnComplete sA) (Variant2.returnComplete sB) := by
  obtain ⟨e1, e2, e3, e4, e5, e6, e7, e8⟩ := hrel
  cases hpa : sA.pending with
  | returnEnd k d =>
      obtain ⟨dB, hpb⟩ := shape_eq_returnEnd sB.pending k (by rw [e8, hpa]; rfl)
      unfold returnComplete Variant2.returnComplete
      rw [hpa, hpb]
      dsimp only
      simp only [e1, e2, e3, e4, e5, e6, e7]
      cases hfp : findPage sA.pages k with
      | some p =>
          unfold updateDisplay Variant2.updateDisplay
          exact ⟨rfl, rfl, rfl, rfl, rfl, rfl, rfl, rfl⟩
      | none => exact ⟨e1, e2, e3, e4, e5, e6, e7, e8⟩
  | none =>
      have hpb := shape_eq_nothing sB.pending (by rw [e8, hpa]; rfl)
      unfold returnComplete Variant2.returnComplete
      rw [hpa, hpb]
      exact ⟨e1, e2, e3, e4, e5, e6, e7, e8⟩
  | opening d =>
      obtain ⟨dB, hpb⟩ := shape_eq_opening sB.pending (by rw [e8, hpa]; rfl)
      unfold returnComplete Variant2.returnComplete
      rw [hpa, hpb]
      exact ⟨e1, e2, e3, e4, e5, e6, e7, e8⟩
  | turnEnd k d =>
      obtain ⟨dB, hpb⟩ := shape_eq_turnEnd sB.pending k (by rw [e8, hpa]; rfl)
      unfold returnComplete Variant2.returnComplete
      rw [hpa, hpb]
      exact ⟨e1, e2, e3, e4, e5, e6, e7, e8⟩
  | returnStart k d =>
      obtain ⟨dB, hpb⟩ := shape_eq_returnStart sB.pending k (by rw [e8, hpa]; rfl)
      unfold returnComplete Variant2.returnComplete
      rw [hpa, hpb]
      exact ⟨e1, e2, e3, e4, e5, e6, e7, e8⟩

theorem openNotebook_pending (s : NState) (hA : s.isAnimating = false)
    (hO : s.isOpened = false) :
    (openNotebook s).pending = Pending.opening 500 := by
  unfold openNotebook
  rw [if_neg (by simp [hA, hO])]

theorem openNotebookB_pending (s : Variant2.BState) (hA : s.isAnimating = false)
    (hO : s.isOpened = false) :
    (Variant2.openNotebook s).pending = Pending.opening 1000 := by
  unfold Variant2.openNotebook
  rw [if_neg (by simp [hA, hO])]

theorem nextPage_pending (s : NState) (p : PageEl) (hA : s.isAnimating = false)
    (hcp : s.currentPage < s.totalPages)
    (hfp : findPage s.pages s.currentPage = some p) :
    (nextPage s).pending = Pending.turnEnd s.currentPage 600 := by
  unfold nextPage
  rw [if_neg (by push_neg; exact ⟨by simp [hA], by omega⟩)]
  dsimp only
  rw [hfp]

theorem nextPageB_pending (s : Variant2.BState) (p : PageEl)
    (hA : s.isAnimating = false) (hcp : s.currentPage < s.totalPages)
    (hfp : findPage s.pages s.currentPage = some p) :
    (Variant2.nextPage s).pending = Pending.turnEnd s.currentPage 1000 := by
  unfold Variant2.nextPage
  rw [if_neg (by push_neg; exact ⟨by simp [hA], by omega⟩)]
  dsimp only
  rw [hfp]

theorem returnMid_pending (s : NState) (k : Int) (d : Nat) (p : PageEl)
    (hpa : s.pending = Pending.returnStart k d)
    (hfp : findPage s.pages k = some p) :
    (returnMid s).pending = Pending.returnEnd k 600 := by
  unfold returnMid
  rw [hpa]
  dsimp only
  rw [hfp]

theorem returnMidB_pending (s : Variant2.BState) (k : Int) (d : Nat)
    (p : PageEl) (hpa : s.pending = Pending.returnStart k d)
    (hfp : findPage s.pages k = some p) :
    (Variant2.returnMid s).pending = Pending.returnEnd k 1000 := by
  unfold Variant2.returnMid
  rw [hpa]
  dsimp only
  rw [hfp]

/-- C10: the two source variants are behaviourally equivalent on the
core state machine: states related by rel (equal controller fields,
"opened" class, page presentation classes and transforms, indicator, and
the same scheduled callback up to its delay) remain related under each
of the three operations and the four scheduled callbacks; the variants
differ only in the delays of their timed steps — 500 vs 1000 ms for the
open completion, 600 vs 1000 ms for the page-turn and reverse-turn
completions, 50 ms in both for the reverse-turn start. -/
theorem claim10_variants_equivalent (sA : NState) (sB : Variant2.BState)
    (hrel : rel sA sB) :
    rel (openNotebook sA) (Variant2.openNotebook sB) ∧
    rel (nextPage sA) (Variant2.nextPage sB) ∧
    rel (previousPage sA) (Variant2.previousPage sB) ∧
    rel (openComplete sA) (Variant2.openComplete sB) ∧
    rel (turnComplete sA) (Variant2.turnComplete sB) ∧
    rel (returnMid sA) (Variant2.returnMid sB) ∧
    rel (returnComplete sA) (Variant2.returnComplete sB) ∧
    (sA.isAnimating = false → sA.isOpened = false →
      (openNotebook sA).pending = Pending.opening 500 ∧
      (Variant2.openNotebook sB).pending = Pending.opening 1000) ∧
    (∀ p, sA.isAnimating = false → sA.currentPage < sA.totalPages →
      findPage sA.pages sA.currentPage = some p →
      (nextPage sA).pending = Pending.turnEnd sA.currentPage 600 ∧
      (Variant2.nextPage sB).pending = Pending.turnEnd sA.currentPage 1000) ∧
    (∀ k d p, sA.pending = Pending.returnStart k d →
      findPage sA.pages k = some p →
      (returnMid sA).pending = Pending.returnEnd k 600 ∧
      (Variant2.returnMid sB).pending = Pending.returnEnd k 1000) := by
  obtain ⟨e1, e2, e3, e4, e5, e6, e7, e8⟩ := hrel
  refine ⟨rel_openNotebook sA sB ⟨e1, e2, e3, e4, e5, e6, e7, e8⟩,
    rel_nextPage sA sB ⟨e1, e2, e3, e4, e5, e6, e7, e8⟩,
    rel_previousPage sA sB ⟨e1, e2, e3, e4, e5, e6, e7, e8⟩,
    rel_openComplete sA sB ⟨e1, e2, e3, e4, e5, e6, e7, e8⟩,
    rel_turnComplete sA sB ⟨e1, e2, e3, e4, e5, e6, e7, e8⟩,
    rel_returnMid sA sB ⟨e1, e2, e3, e4, e5, e6, e7, e8⟩,
    rel_returnComplete sA sB ⟨e1, e2, e3, e4, e5, e6, e7, e8⟩, ?_, ?_, ?_⟩
  · intro hA hO
    exact ⟨openNotebook_pending sA hA hO,
      openNotebookB_pending sB (by rw [e4]; exact hA) (by rw [e3]; exact hO)⟩
  · intro p hA hcp hfp
    have hB := nextPageB_pending sB p (by rw [e4]; exact hA)
      (by rw [e2, e1]; exact hcp) (by rw [e6, e1]; exact hfp)
    rw [e1] at hB
    exact ⟨nextPage_pending sA p hA hcp hfp, hB⟩
  · intro k d p hpa hfp
    obtain ⟨dB, hpb⟩ := shape_eq_returnStart sB.pending k (by rw [e8, hpa]; rfl)
    exact ⟨returnMid_pending sA k d p hpa hfp,
      returnMidB_pending sB k dB p hpb (by rw [e6]; exact hfp)⟩

/-- Witness for C10: the two constructor states over the spec-modelled
page stack are related and stay related after open, which schedules
500 ms in variant A and 1000 ms in variant B. -/
theorem claim10_witness :
    rel (openNotebook (init stdPages))
      (Variant2.openNotebook (Variant2.init stdPages)) ∧
    (openNotebook (init stdPages)).pending = Pending.opening 500 ∧
    (Variant2.openNotebook (Variant2.init stdPages)).pending =
      Pending.opening 1000 := by
  have hrel0 : rel (init stdPages) (Variant2.init stdPages) := by
    unfold rel
    refine ⟨?_, ?_, ?_, ?_, ?_, ?_, ?_, ?_⟩ <;> decide
  have h := claim10_variants_equivalent (init stdPages) (Variant2.init stdPages)
    hrel0
  have hd := h.2.2.2.2.2.2.2.1 (by decide) (by decide)
  exact ⟨h.1, hd.1, hd.2⟩

end Notebook
